import Mathlib

/-!
Verification development for the incident-extraction pipeline of this
repository (backend/footage_analysis.py and backend/web_api.py).

The Python source is shallowly embedded: pure computations become Lean
functions, and every fallible external collaborator (the media decoder,
the Whisper transcription engine, the file system, the language-model
client) is abstracted as an input of type Except String _, so that the
orchestration logic of the source — which is what the specification
talks about — is reproduced exactly, including which exceptions are
caught where.
-/

namespace FootageAnalysis

/-- A JSON value, mirroring the Python dict/list structures handed to
json.dump and flask.jsonify.  Python dicts keep insertion order, so an
object is an ordered association list. -/
inductive Json where
  | num (n : Int)
  | str (s : String)
  | arr (elems : List Json)
  | obj (fields : List (String × Json))
deriving Repr, Inhabited

/-- The key list of a JSON object (the set of fields a consumer of the
report sees for one entry). -/
def Json.keys : Json → List String
  | .obj fields => fields.map Prod.fst
  | _ => []

/-- A time window of the source video, in integer seconds.  In
footage_analysis.py a window is the pair (start, end) produced at lines
52-53; "end" is a Lean keyword so the field is called stop. -/
structure Window where
  start : Int
  stop : Int
deriving Repr, DecidableEq, Inhabited

/-- Constant CHUNK_DURATION = 300 at line 19 of footage_analysis.py
(5 minutes in seconds).  The code never validates it. -/
def CHUNK_DURATION : Int := 300

/-- Length of the Python sequence range(start, stop, step) for step ≠ 0,
per the documented CPython semantics: the elements are
start, start+step, ... while they stay below stop (step > 0), or while
they stay above stop (step < 0). -/
def rangeLen (start stop step : Int) : Nat :=
  if 0 < step then ((stop - start + step - 1) / step).toNat
  else ((start - stop - step - 1) / (-step)).toNat

/-- Python range(start, stop, step): raises ValueError for step = 0,
otherwise the arithmetic progression of rangeLen elements. -/
def pyRange (start stop step : Int) : Except String (List Int) :=
  if step = 0 then .error "ValueError: range() arg 3 must not be zero"
  else .ok ((List.range (rangeLen start stop step)).map fun i : Nat => start + step * (i : Int))

/-- The chunk-planning loop of extract_chunks (footage_analysis.py lines
52-53): for start in range(0, duration, chunkLen), the window is
(start, min(start + chunkLen, duration)).  The duration is
int(clip.duration), hence a natural number; the chunk length is left as
a parameter (the code instantiates it with CHUNK_DURATION). -/
def plan (duration : Nat) (chunkLen : Int) : Except String (List Window) :=
  (pyRange 0 duration chunkLen).map
    (List.map fun s => { start := s, stop := min (s + chunkLen) (duration : Int) })

/-- Closed form of the plan for a positive chunk length: the i-th window
starts at i * chunkLen. -/
def planPos (duration chunkLen : Nat) : List Window :=
  (List.range (rangeLen 0 duration chunkLen)).map fun i : Nat =>
    { start := (chunkLen : Int) * (i : Int)
      stop := min ((chunkLen : Int) * (i : Int) + (chunkLen : Int)) (duration : Int) }

/-- A per-window result record, mirroring the Python dict built at lines
100-103 / 107-110 / 158-166 of footage_analysis.py.  The dict has
exactly the two keys "timestamp" and "summary". -/
structure Finding where
  timestamp : Int
  summary : String
deriving Repr, DecidableEq, Inhabited

/-- Serialization of one finding, exactly the keys of the Python dict in
insertion order. -/
def Finding.toJson (f : Finding) : Json :=
  .obj [("timestamp", .num f.timestamp), ("summary", .str f.summary)]

/-- analyze_transcript (footage_analysis.py lines 81-110).  The
language-model collaborator is the function llmCall, standing for
chat_completion on the fixed system prompt plus the transcript text and
extraction of completion_message.content; an error value stands for any
exception raised by that call.  The whole body after message
construction sits in a try/except, so the function is total: on failure
it returns a dict whose summary is "Error analyzing transcript: "
followed by str(e).  (The has_incident flag computed at line 98 is dead:
it is never used.) -/
def analyze_transcript (llmCall : String → Except String String)
    (transcript_text : String) (chunk_start_time : Int) : Finding :=
  match llmCall transcript_text with
  | .ok summary => { timestamp := chunk_start_time, summary := summary }
  | .error e =>
      { timestamp := chunk_start_time, summary := "Error analyzing transcript: " ++ e }

/-- Zero-padded two-digit rendering of a natural number, Python's
format spec 02d (numbers of three or more digits print in full). -/
def pad2 (n : Nat) : String :=
  if n < 10 then "0" ++ toString n else toString n

/-- Audio artifact path for a window (footage_analysis.py line 56):
temp/chunk_MM-MM.mp3 with start and end rendered in whole minutes. -/
def audioName (w : Window) : String :=
  "temp/chunk_" ++ pad2 (w.start.toNat / 60) ++ "-" ++ pad2 (w.stop.toNat / 60) ++ ".mp3"

/-- Transcript file path derived from an audio path (footage_analysis.py
line 147): os.path.splitext drops the ".mp3" extension (the last four
characters; chunk names contain no other dot) and "_transcript.txt" is
appended; the result is joined back under the temp directory, which the
audio path already carries as its prefix. -/
def transcriptNameOf (audioPath : String) : String :=
  String.mk (audioPath.data.take (audioPath.data.length - 4)) ++ "_transcript.txt"

/-- One element of the audio_files list of extract_chunks: the artifact
path and the window start in seconds (line 58). -/
structure AudioChunk where
  path : String
  start : Int
deriving Repr, DecidableEq, Inhabited

/-- One element of the transcripts list of transcribe_chunks: audio
path, transcribed text, window start (line 76). -/
structure Transcript where
  path : String
  text : String
  start : Int
deriving Repr, DecidableEq, Inhabited

/-- The behaviour of every external collaborator and fallible side
effect that one invocation of footage_analysis.main can observe.  Each
Except value stands for the outcome of the corresponding Python call; an
error value is the exception it raises. -/
structure World where
  /-- os.path.exists(video_path) (line 118). -/
  fileExists : Bool
  /-- create_llama_client() (line 127). -/
  clientCreation : Except String Unit
  /-- os.getenv("INFERENCE_MODEL") (line 128); none covers unset and
  empty, both falsy in Python. -/
  inferenceModel : Option String
  /-- mp.VideoFileClip(video_path) followed by int(clip.duration)
  (lines 41-42); success yields the duration in whole seconds. -/
  decoderOpen : Except String Nat
  /-- subclip extraction and write_audiofile for the window starting at
  the given second (lines 55-57). -/
  extractChunk : Int → Except String Unit
  /-- whisper.load_model (line 67). -/
  whisperLoad : Except String Unit
  /-- model.transcribe for the chunk starting at the given second,
  yielding result["text"] (lines 73-76). -/
  transcribeChunk : Int → Except String String
  /-- open/write of the transcript file for the chunk starting at the
  given second (lines 148-149). -/
  writeTranscriptFile : Int → Except String Unit
  /-- llm_client.inference.chat_completion on the transcript text, and
  the subsequent reads of the response (lines 90-98). -/
  llmCall : String → Except String String
  /-- json.dump of the results into OUTPUT_FILE (lines 171-172). -/
  writeOutput : Except String Unit
  /-- shutil.rmtree(temp_dir) (line 181): true when removal succeeds. -/
  rmtreeOk : Bool

/-- The extraction loop of extract_chunks (lines 52-59).  Returns the
files written into the temp workspace (they stay there even when a later
iteration raises) together with either the audio_files list or the first
exception raised. -/
def extractLoop (w : World) : List Window → List String × Except String (List AudioChunk)
  | [] => ([], .ok [])
  | win :: rest =>
    match w.extractChunk win.start with
    | .error e => ([], .error e)
    | .ok _ =>
      let file := audioName win
      let next := extractLoop w rest
      (file :: next.1, next.2.map fun cs => { path := file, start := win.start } :: cs)

/-- The transcription loop of transcribe_chunks (lines 70-76): the first
engine failure propagates as an exception. -/
def transcribeLoop (w : World) : List AudioChunk → Except String (List Transcript)
  | [] => .ok []
  | c :: rest =>
    match w.transcribeChunk c.start with
    | .error e => .error e
    | .ok text =>
      match transcribeLoop w rest with
      | .error e => .error e
      | .ok ts => .ok ({ path := c.path, text := text, start := c.start } :: ts)

/-- The per-transcript loop of main (lines 143-168): write the
transcript file (an exception here propagates), then build the incident
record — via analyze_transcript when the client and model are available,
else the "LLM client not available." placeholder.  The try/except around
analyze_transcript at lines 154-161 is dead code because
analyze_transcript never raises.  Returns the transcript files written
so far and either the results list or the first exception. -/
def analysisLoop (w : World) (modelAvail : Bool) :
    List Transcript → List String × Except String (List Finding)
  | [] => ([], .ok [])
  | t :: rest =>
    match w.writeTranscriptFile t.start with
    | .error e => ([], .error e)
    | .ok _ =>
      let tfile := transcriptNameOf t.path
      let finding :=
        if modelAvail then analyze_transcript w.llmCall t.text t.start
        else { timestamp := t.start, summary := "LLM client not available." }
      let next := analysisLoop w modelAvail rest
      (tfile :: next.1, next.2.map fun fs => finding :: fs)

/-- Result of one invocation of main: either a report (exit 0) or a
job-level error (sys.exit(1)).  workspaceFiles is the list of files
still present under the temp workspace when the process exits. -/
inductive Outcome where
  | report (findings : List Finding) (workspaceFiles : List String)
  | jobError (msg : String) (workspaceFiles : List String)
deriving Repr, DecidableEq, Inhabited

/-- The try block of main at lines 136-187, given whether the LLM
client and model id are available (the condition at line 153).  Any
exception from extraction, whisper loading, transcription, transcript
writing or the output write lands in the except at line 185: the job
exits 1 and nothing removes the temp files written so far.  Cleanup runs
only at the end of the try block, and its own failure is only a warning
(lines 179-183). -/
def runJob (w : World) (modelAvail : Bool) : Outcome :=
  match w.decoderOpen with
  | .error e => .jobError e []
  | .ok duration =>
    let ex := extractLoop w (planPos duration 300)
    match ex.2 with
    | .error e => .jobError e ex.1
    | .ok chunks =>
      match w.whisperLoad with
      | .error e => .jobError e ex.1
      | .ok _ =>
        match transcribeLoop w chunks with
        | .error e => .jobError e ex.1
        | .ok transcripts =>
          let an := analysisLoop w modelAvail transcripts
          match an.2 with
          | .error e => .jobError e (ex.1 ++ an.1)
          | .ok results =>
            match w.writeOutput with
            | .error e => .jobError e (ex.1 ++ an.1)
            | .ok _ =>
              .report results (if w.rmtreeOk then [] else ex.1 ++ an.1)

/-- main of footage_analysis.py (lines 112-187), for an invocation with
exactly one argument.  A missing file exits 1; a failure of client
creation is caught at line 133 and leaves both llm_client and model_id
as None; with a created client but no INFERENCE_MODEL the sys.exit(1) at
line 131 aborts (SystemExit is not an Exception, so the surrounding
except does not catch it). -/
def main (w : World) : Outcome :=
  if w.fileExists then
    match w.clientCreation with
    | .error _ => runJob w false
    | .ok _ =>
      match w.inferenceModel with
      | none => .jobError "Error: INFERENCE_MODEL not set in .env" []
      | some _ => runJob w true
  else .jobError ("Error: File does not exist") []

/-- Modelled from the spec: web_api.py line 5 imports analyze_video from
footage_analysis, but footage_analysis.py defines no such function (only
main).  Per the spec (sections 4.5 and 6) the pipeline entry point runs
the job over the uploaded video and returns the Report, raising on a
job-level error; that is the behaviour embedded here on top of main. -/
def analyze_video (w : World) : Except String (List Finding) :=
  match main w with
  | .report findings _ => .ok findings
  | .jobError msg _ => .error msg

/-- An HTTP response of the upload endpoint: status code and JSON body. -/
structure HttpResponse where
  status : Nat
  body : Json
deriving Repr, Inhabited

/-- A multipart upload request as the handler sees it: whether the
fixed field name "video" is present in request.files. -/
structure UploadRequest where
  hasVideoField : Bool
deriving Repr, DecidableEq, Inhabited

/-- The /analyze handler of web_api.py (lines 13-26): 400 with a JSON
error object when the "video" field is missing; otherwise the uploaded
file is saved and analyze_video runs over it — its result is returned as
JSON with status 200, and any exception is returned as a JSON error
object with status 500. -/
def analyze (req : UploadRequest) (w : World) : HttpResponse :=
  if req.hasVideoField then
    match analyze_video w with
    | .ok results => { status := 200, body := .arr (results.map Finding.toJson) }
    | .error e => { status := 500, body := .obj [("error", .str e)] }
  else { status := 400, body := .obj [("error", .str "No video file provided")] }

/-- The structural properties the specification asserts of the chunk
plan for inputs d (total duration) and L (chunk length): the plan
succeeds; its windows are exactly the i-th windows with start i * L and
stop min(i * L + L, d); consecutive windows are contiguous with
ascending starts; every window is non-empty, no longer than L and inside
the video; and every second of the video is covered by exactly one
window. -/
def planSpec (d L : Nat) : Prop :=
  plan d L = .ok (planPos d L) ∧
  planPos d L = (List.range ((d + L - 1) / L)).map (fun i : Nat =>
    { start := (L : Int) * (i : Int)
      stop := min ((L : Int) * (i : Int) + (L : Int)) (d : Int) }) ∧
  List.Chain' (fun a b => a.stop = b.start ∧ a.start < b.start) (planPos d L) ∧
  (∀ wi ∈ planPos d L,
    wi.start < wi.stop ∧ wi.stop - wi.start ≤ (L : Int) ∧ 0 ≤ wi.start ∧ wi.stop ≤ (d : Int)) ∧
  (∀ t : Nat, t < d →
    (planPos d L).countP (fun wi => decide (wi.start ≤ (t : Int) ∧ (t : Int) < wi.stop)) = 1)

/-- A fully cooperative world: the source file exists, the client and
model are configured, and every collaborator succeeds.  Concrete runs
below perturb single fields of this world. -/
def WBase : World where
  fileExists := true
  clientCreation := .ok ()
  inferenceModel := some "llama3"
  decoderOpen := .ok 700
  extractChunk := fun _ => .ok ()
  whisperLoad := .ok ()
  transcribeChunk := fun _ => .ok "all quiet"
  writeTranscriptFile := fun _ => .ok ()
  llmCall := fun _ => .ok "No incidents."
  writeOutput := .ok ()
  rmtreeOk := true

/-- A 300-second video whose single window fails transcription. -/
def W1x : World :=
  { WBase with decoderOpen := .ok 300, transcribeChunk := fun _ => .error "whisper crashed" }

/-- A world where every language-model call fails but everything else
succeeds. -/
def W1w : World := { WBase with llmCall := fun _ => .error "service unavailable" }

/-- A fully successful 300-second job whose final temp-directory removal
fails. -/
def W2x : World := { WBase with decoderOpen := .ok 300, rmtreeOk := false }

/-- A 600-second video (two windows) whose first window alone fails
transcription. -/
def W3x : World :=
  { WBase with
    decoderOpen := .ok 600
    transcribeChunk := fun s => if s = 0 then .error "ASR failed on window 0" else .ok "all quiet" }

/-- A 900-second video (three windows) whose middle window alone fails
transcription. -/
def W3w : World :=
  { WBase with
    decoderOpen := .ok 900
    transcribeChunk := fun s => if s = 300 then .error "ASR engine crash" else .ok "quiet" }

/-- A fully successful 300-second job. -/
def W8x : World := { WBase with decoderOpen := .ok 300 }

/-- A successful world whose transcription engine returns a different
text. -/
def W8w : World := { WBase with transcribeChunk := fun _ => .ok "radio chatter" }

/-- A successful 200-second job, driven through the HTTP handler. -/
def W9 : World := { WBase with decoderOpen := .ok 200 }

/-- A world whose decoder cannot open the uploaded file. -/
def W9e : World := { WBase with decoderOpen := .error "moov atom not found" }

/-- A 300-second video whose transcript-file write fails. -/
def W10x : World :=
  { WBase with decoderOpen := .ok 300, writeTranscriptFile := fun _ => .error "disk full" }

/-- A 350-second video (two windows) whose second window's
transcript-file write alone fails. -/
def W10w : World :=
  { WBase with
    decoderOpen := .ok 350
    writeTranscriptFile := fun s => if s = 300 then .error "read-only file system" else .ok () }

/-!  Helper lemmas about the embedded definitions. -/

/-- For a positive chunk length the range length is the ceiling of
duration / chunkLen, computed as a natural-number division. -/
theorem rangeLen_pos_eq (d L : Nat) (hL : 0 < L) :
    rangeLen 0 d L = (d + L - 1) / L := by
  have hcast : ((d : Int) - 0 + L - 1) = ((d + L - 1 : Nat) : Int) := by omega
  have hLpos : (0 : Int) < L := by exact_mod_cast hL
  rw [rangeLen, if_pos hLpos, hcast, ← Int.ofNat_ediv, Int.toNat_natCast]

/-- The plan for a positive chunk length succeeds and is the closed-form
window list. -/
theorem plan_pos_eq (d L : Nat) (hL : 0 < L) : plan d L = .ok (planPos d L) := by
  have h0 : ((L : Int) = 0) = False := by
    simp only [eq_iff_iff, iff_false]
    exact_mod_cast Nat.pos_iff_ne_zero.mp hL
  simp only [plan, pyRange, h0, if_false, Except.map, planPos, List.map_map]
  congr 1
  apply List.map_congr_left
  intro i _
  simp [Function.comp, zero_add]

/-- An index is inside the plan exactly when its window would start
before the end of the video. -/
theorem lt_rangeLen_iff (d L i : Nat) (hL : 0 < L) :
    i < rangeLen 0 d L ↔ L * i < d := by
  rw [rangeLen_pos_eq d L hL]
  constructor
  · intro h
    have h1 : i + 1 ≤ (d + L - 1) / L := h
    have h2 : (i + 1) * L ≤ d + L - 1 := (Nat.le_div_iff_mul_le hL).mp h1
    rw [Nat.succ_mul, Nat.mul_comm] at h2
    generalize hx : L * i = x at h2 ⊢
    omega
  · intro h
    have h2 : (i + 1) * L ≤ d + L - 1 := by
      rw [Nat.succ_mul, Nat.mul_comm]
      generalize hx : L * i = x at h ⊢
      omega
    exact (Nat.le_div_iff_mul_le hL).mpr h2

/-- An empty video yields an empty plan. -/
theorem planPos_zero (L : Nat) (hL : 0 < L) : planPos 0 L = [] := by
  rw [planPos, rangeLen_pos_eq 0 L hL, Nat.div_eq_of_lt (by omega)]
  rfl

/-- The timestamp of an analysis result is always the window start,
whether the language-model call succeeds or fails. -/
theorem analyze_timestamp (llm : String → Except String String) (text : String) (t : Int) :
    (analyze_transcript llm text t).timestamp = t := by
  cases h : llm text <;> simp [analyze_transcript, h]

/-- Every finding serializes to an object with exactly the keys
"timestamp" and "summary". -/
theorem finding_keys (f : Finding) : Json.keys f.toJson = ["timestamp", "summary"] := rfl

/-- When every per-window extraction succeeds, the extraction loop
writes one audio file per window and returns one audio chunk per
window. -/
theorem extractLoop_ok (w : World) (h : ∀ s, w.extractChunk s = .ok ()) :
    ∀ wins : List Window,
      extractLoop w wins =
        (wins.map audioName, .ok (wins.map fun win => { path := audioName win, start := win.start }))
  | [] => rfl
  | win :: rest => by
    simp only [extractLoop, h win.start, List.map_cons, extractLoop_ok w h rest, Except.map]

/-- When the engine succeeds on every chunk, transcription returns one
transcript per chunk, with the text given by the engine. -/
theorem transcribeLoop_ok (w : World) (tf : Int → String)
    (h : ∀ s, w.transcribeChunk s = .ok (tf s)) :
    ∀ cs : List AudioChunk,
      transcribeLoop w cs =
        .ok (cs.map fun c => { path := c.path, text := tf c.start, start := c.start })
  | [] => rfl
  | c :: rest => by
    simp only [transcribeLoop, h c.start, List.map_cons, transcribeLoop_ok w tf h rest]

/-- When every transcript-file write succeeds, the analysis loop writes
one transcript file per transcript and produces one finding per
transcript — via analyze_transcript when the client is available, else
the placeholder. -/
theorem analysisLoop_ok (w : World) (ma : Bool) (h : ∀ s, w.writeTranscriptFile s = .ok ()) :
    ∀ ts : List Transcript,
      analysisLoop w ma ts =
        (ts.map fun t => transcriptNameOf t.path,
         .ok (ts.map fun t =>
           if ma then analyze_transcript w.llmCall t.text t.start
           else { timestamp := t.start, summary := "LLM client not available." }))
  | [] => rfl
  | t :: rest => by
    simp only [analysisLoop, h t.start, List.map_cons, analysisLoop_ok w ma h rest, Except.map]

/-- When the decoder, extraction, the whisper engine, the transcript
writes and the output write all succeed, the job produces a report with
exactly one finding per planned window — whatever the language-model
collaborator does — and the workspace is empty exactly when the final
removal succeeds. -/
theorem runJob_success (w : World) (ma : Bool) (d : Nat) (tf : Int → String)
    (h1 : w.decoderOpen = .ok d)
    (h2 : ∀ s, w.extractChunk s = .ok ())
    (h3 : w.whisperLoad = .ok ())
    (h4 : ∀ s, w.transcribeChunk s = .ok (tf s))
    (h5 : ∀ s, w.writeTranscriptFile s = .ok ())
    (h6 : w.writeOutput = .ok ()) :
    runJob w ma = .report
      ((planPos d 300).map fun win =>
        if ma then analyze_transcript w.llmCall (tf win.start) win.start
        else { timestamp := win.start, summary := "LLM client not available." })
      (if w.rmtreeOk then [] else
        (planPos d 300).map audioName ++
          (planPos d 300).map fun win => transcriptNameOf (audioName win)) := by
  have hex := extractLoop_ok w h2 (planPos d 300)
  have htr := transcribeLoop_ok w tf h4
    ((planPos d 300).map fun win => { path := audioName win, start := win.start })
  have han := analysisLoop_ok w ma h5
    (((planPos d 300).map fun win =>
        ({ path := audioName win, start := win.start } : AudioChunk)).map fun c =>
      { path := c.path, text := tf c.start, start := c.start })
  unfold runJob
  rw [h1]
  dsimp only
  rw [hex]
  dsimp only
  rw [h3]
  dsimp only
  rw [htr]
  dsimp only
  rw [han]
  dsimp only
  rw [h6]
  dsimp only
  simp only [List.map_map]
  rfl

/-- With a present source file and a configured model (or a failed
client creation), main runs the job body with some availability flag. -/
theorem main_runJob (w : World) (hfile : w.fileExists = true)
    (hcfg : w.clientCreation = .ok () → w.inferenceModel.isSome = true) :
    main w = runJob w false ∨ main w = runJob w true := by
  unfold main
  rw [hfile]
  cases hcc : w.clientCreation with
  | error e => exact Or.inl (by simp)
  | ok u =>
    cases u
    cases him : w.inferenceModel with
    | none =>
      have := hcfg hcc
      rw [him] at this
      simp at this
    | some m => exact Or.inr (by simp)

/-- If some window's extraction fails, the extraction loop raises the
first such failure. -/
theorem extractLoop_err (w : World) :
    ∀ wins : List Window,
      (∃ win ∈ wins, ∃ e, w.extractChunk win.start = .error e) →
      ∃ e files, extractLoop w wins = (files, .error e)
  | [], hfail => by simp at hfail
  | win :: rest, hfail => by
    rw [extractLoop]
    cases hx : w.extractChunk win.start with
    | error e => exact ⟨e, [], rfl⟩
    | ok u =>
      obtain ⟨w0, hw0, e0, he0⟩ := hfail
      rcases List.mem_cons.mp hw0 with h | h
      · subst h
        rw [hx] at he0
        cases he0
      · obtain ⟨e, files, hrec⟩ := extractLoop_err w rest ⟨w0, h, e0, he0⟩
        exact ⟨e, audioName win :: files, by simp [hrec, Except.map]⟩

/-- If some chunk's transcription fails, the transcription loop raises
the first such failure. -/
theorem transcribeLoop_err (w : World) :
    ∀ cs : List AudioChunk,
      (∃ c ∈ cs, ∃ e, w.transcribeChunk c.start = .error e) →
      ∃ e, transcribeLoop w cs = .error e
  | [], hfail => by simp at hfail
  | c :: rest, hfail => by
    rw [transcribeLoop]
    cases hx : w.transcribeChunk c.start with
    | error e => exact ⟨e, rfl⟩
    | ok text =>
      obtain ⟨c0, hc0, e0, he0⟩ := hfail
      rcases List.mem_cons.mp hc0 with h | h
      · subst h
        rw [hx] at he0
        cases he0
      · obtain ⟨e, hrec⟩ := transcribeLoop_err w rest ⟨c0, h, e0, he0⟩
        exact ⟨e, by simp [hrec]⟩

/-- If some transcript-file write fails, the analysis loop raises the
first such failure. -/
theorem analysisLoop_err (w : World) (ma : Bool) :
    ∀ ts : List Transcript,
      (∃ t ∈ ts, ∃ e, w.writeTranscriptFile t.start = .error e) →
      ∃ e files, analysisLoop w ma ts = (files, .error e)
  | [], hfail => by simp at hfail
  | t :: rest, hfail => by
    rw [analysisLoop]
    cases hx : w.writeTranscriptFile t.start with
    | error e => exact ⟨e, [], rfl⟩
    | ok u =>
      obtain ⟨t0, ht0, e0, he0⟩ := hfail
      rcases List.mem_cons.mp ht0 with h | h
      · subst h
        rw [hx] at he0
        cases he0
      · obtain ⟨e, files, hrec⟩ := analysisLoop_err w ma rest ⟨t0, h, e0, he0⟩
        exact ⟨e, transcriptNameOf t.path :: files, by simp [hrec, Except.map]⟩

/-- A window list built by mapping over an initial range is a chain for
a relation that holds between all consecutive images. -/
theorem chain'_map_range (n : Nat) (f : Nat → Window) (R : Window → Window → Prop)
    (hf : ∀ i, i + 1 < n → R (f i) (f (i + 1))) :
    List.Chain' R ((List.range n).map f) := by
  rw [List.chain'_map]
  cases n with
  | zero => simp
  | succ m =>
    rw [List.chain'_range_succ]
    intro i hi
    exact hf i (by omega)

/-- Counting over an initial range with a predicate that holds at
exactly one index below the bound gives one. -/
theorem countP_range_unique (q : Nat → Bool) (i0 : Nat) (hq : ∀ i, q i = true ↔ i = i0) :
    ∀ n : Nat, i0 < n → (List.range n).countP q = 1 := by
  intro n
  induction n with
  | zero => omega
  | succ m ih =>
    intro hi0
    rw [List.range_succ, List.countP_append]
    by_cases hm : i0 = m
    · subst hm
      have h0 : (List.range i0).countP q = 0 := by
        rw [List.countP_eq_zero]
        intro a ha
        simp only [hq a]
        have := List.mem_range.mp ha
        omega
      simp [h0, List.countP_cons, (hq i0).mpr rfl]
    · have hqm : q m = false := by
        cases hqv : q m with
        | false => rfl
        | true => exact absurd ((hq m).mp hqv) (fun h => hm h.symm)
      rw [ih (by omega)]
      simp [List.countP_cons, hqm]

/-!  Claim theorems. -/

/-- C4 (confirmed): for every non-negative total duration d and every
positive chunk length L, the planning loop of extract_chunks succeeds
and produces exactly the ceiling of d / L windows — written with natural
division as (d + L - 1) / L — and for d = 0 it produces the empty window
sequence with no error. -/
theorem C4_plan_window_count (d L : Nat) (hL : 0 < L) :
    plan d L = .ok (planPos d L) ∧
    (planPos d L).length = (d + L - 1) / L ∧
    plan 0 L = .ok [] := by
  refine ⟨plan_pos_eq d L hL, ?_, ?_⟩
  · rw [planPos, List.length_map, List.length_range, rangeLen_pos_eq d L hL]
  · rw [plan_pos_eq 0 L hL, planPos_zero L hL]

/-- Witness for C4 at the spec's example 700 seconds with 300-second
chunks: the plan succeeds with ceil(700/300) = 3 windows, and the empty
video plans to no windows without an error. -/
theorem C4_plan_window_count_witness :
    0 < 300 ∧
    (plan 700 300 = .ok (planPos 700 300) ∧
      (planPos 700 300).length = (700 + 300 - 1) / 300 ∧
      plan 0 300 = .ok []) :=
  ⟨by decide, C4_plan_window_count 700 300 (by decide)⟩

/-- C5 (confirmed): for every non-negative duration and positive chunk
length L, the planned windows are [0, L), [L, 2L), ..., up to
[kL, min((k+1)L, duration)): contiguous, non-overlapping, in ascending
start order, each non-empty and of length at most L, and every second of
[0, duration) lies in exactly one window. -/
theorem C5_plan_window_structure (d L : Nat) (hL : 0 < L) : planSpec d L := by
  have hLI : (0 : Int) < L := by exact_mod_cast hL
  refine ⟨plan_pos_eq d L hL, ?_, ?_, ?_, ?_⟩
  · rw [planPos, rangeLen_pos_eq d L hL]
  · apply chain'_map_range
    intro i hi1
    have hstart : L * (i + 1) < d := (lt_rangeLen_iff d L (i + 1) hL).mp hi1
    have hstartI : (L : Int) * ((i : Int) + 1) < (d : Int) := by exact_mod_cast hstart
    rw [mul_add, mul_one] at hstartI
    dsimp only
    constructor
    · rw [min_eq_left (le_of_lt hstartI)]
      push_cast
      ring
    · push_cast
      nlinarith [hLI]
  · intro wi hwi
    have hwi2 : wi ∈ (List.range (rangeLen 0 (d : Int) (L : Int))).map fun i : Nat =>
        ({ start := (L : Int) * (i : Int)
           stop := min ((L : Int) * (i : Int) + (L : Int)) (d : Int) } : Window) := hwi
    obtain ⟨i, hi, hwieq⟩ := List.mem_map.mp hwi2
    subst hwieq
    have hiR := List.mem_range.mp hi
    have hid : L * i < d := (lt_rangeLen_iff d L i hL).mp hiR
    have hidI : (L : Int) * (i : Int) < (d : Int) := by exact_mod_cast hid
    dsimp only
    refine ⟨lt_min (by linarith) hidI, ?_, by positivity, min_le_right _ _⟩
    have hminL := min_le_left ((L : Int) * (i : Int) + (L : Int)) (d : Int)
    linarith
  · intro t ht
    rw [planPos, List.countP_map]
    have hq : ∀ i : Nat,
        decide (((L : Int) * (i : Int) ≤ (t : Int)) ∧
          ((t : Int) < min ((L : Int) * (i : Int) + (L : Int)) (d : Int))) = true ↔ i = t / L := by
      intro i
      rw [decide_eq_true_eq]
      constructor
      · rintro ⟨hlo, hhi⟩
        have hhi2 : (t : Int) < (L : Int) * (i : Int) + (L : Int) :=
          lt_of_lt_of_le hhi (min_le_left _ _)
        have hloN : L * i ≤ t := by exact_mod_cast hlo
        have hhiN : t < L * i + L := by exact_mod_cast hhi2
        have h1 : i * L ≤ t := by rw [Nat.mul_comm]; exact hloN
        have h2 : t < (i + 1) * L := by
          rw [Nat.succ_mul, Nat.mul_comm i L]
          exact hhiN
        exact (Nat.div_eq_of_lt_le h1 h2).symm
      · rintro rfl
        have hmlt := Nat.mod_lt t hL
        have hN1 : L * (t / L) ≤ t := by
          rw [Nat.mul_comm]
          exact Nat.div_mul_le_self t L
        have hN2 : t < L * (t / L) + L := by
          conv_lhs => rw [← Nat.div_add_mod t L]
          exact Nat.add_lt_add_left hmlt _
        exact ⟨by exact_mod_cast hN1,
          lt_min_iff.mpr ⟨by exact_mod_cast hN2, by exact_mod_cast ht⟩⟩
    have hi0 : t / L < rangeLen 0 d L := by
      rw [lt_rangeLen_iff d L _ hL]
      have hN1 : L * (t / L) ≤ t := by
        rw [Nat.mul_comm]
        exact Nat.div_mul_le_self t L
      exact lt_of_le_of_lt hN1 ht
    exact countP_range_unique _ (t / L) hq _ hi0

/-- Witness for C5 at the spec's example: 700 seconds with 300-second
chunks. -/
theorem C5_plan_window_structure_witness : 0 < 300 ∧ planSpec 700 300 :=
  ⟨by decide, C5_plan_window_structure 700 300 (by decide)⟩

/-- Counterexample for C7: with a negative chunk length the planning
loop does not fail at all — Python range(0, duration, negative) is
empty, so the plan is silently the empty window list instead of a
configuration error. -/
theorem C7_counter : plan 10 (-5) = .ok [] := rfl

/-- C7 (corrected): the code never validates the chunk length — it is
the hard-wired constant 300.  Substituting a non-positive chunk length
into the planning loop gives: for 0, the unhandled ValueError that
Python range raises (a crash, not a configuration error, though it does
occur before any window is processed); for a negative value, a silent
empty plan — zero windows and no error — rather than any fail-fast
behaviour.  No default is substituted. -/
theorem C7_chunk_length_validation :
    (∀ d : Nat, plan d 0 = .error "ValueError: range() arg 3 must not be zero") ∧
    (∀ (d : Nat) (L : Int), L < 0 → plan d L = .ok []) ∧
    CHUNK_DURATION = 300 := by
  refine ⟨fun d => rfl, fun d L hL => ?_, rfl⟩
  have hne : L ≠ 0 := by omega
  have hnpos : ¬ (0 : Int) < L := by omega
  have hzero : rangeLen 0 d L = 0 := by
    rw [rangeLen, if_neg hnpos]
    have h1 : ((0 : Int) - d - L - 1) / (-L) ≤ ((-L) - 1) / (-L) :=
      Int.ediv_le_ediv (by omega) (by omega)
    have h2 : ((-L) - 1) / (-L) = 0 := Int.ediv_eq_zero_of_lt (by omega) (by omega)
    exact Int.toNat_of_nonpos (h2 ▸ h1)
  rw [plan, pyRange, if_neg hne, hzero]
  rfl

/-- Witness for C7's amended statement at chunk lengths -3 and 0. -/
theorem C7_chunk_length_validation_witness :
    plan 7 (-3) = .ok [] ∧ plan 4 0 = .error "ValueError: range() arg 3 must not be zero" :=
  ⟨C7_chunk_length_validation.2.1 7 (-3) (by decide), C7_chunk_length_validation.1 4⟩

/-- Counterexample for C1: a valid 300-second video with one planned
window whose transcription fails.  The pipeline does not produce a
report with one finding per window; it aborts with a job-level error, so
the window is dropped entirely (and the audio artifact is left
behind). -/
theorem C1_counter :
    main W1x = .jobError "whisper crashed" ["temp/chunk_00-05.mp3"] ∧
    (planPos 300 300).length = 1 :=
  ⟨rfl, rfl⟩

/-- C1 (corrected): one finding per planned window is guaranteed only
when the decoder, every per-window extraction, the whisper engine, every
per-window transcription, every transcript-file write and the final
output write succeed; under those hypotheses the report has exactly one
finding per window even when client creation or every language-model
call fails.  A decoder, extraction or transcription failure instead
aborts the whole job with no report (see the counterexample). -/
theorem C1_findings_per_window (w : World) (d : Nat) (tf : Int → String)
    (hfile : w.fileExists = true)
    (hcfg : w.clientCreation = .ok () → w.inferenceModel.isSome = true)
    (h1 : w.decoderOpen = .ok d)
    (h2 : ∀ s, w.extractChunk s = .ok ())
    (h3 : w.whisperLoad = .ok ())
    (h4 : ∀ s, w.transcribeChunk s = .ok (tf s))
    (h5 : ∀ s, w.writeTranscriptFile s = .ok ())
    (h6 : w.writeOutput = .ok ()) :
    ∃ findings files, main w = .report findings files ∧
      findings.length = (planPos d 300).length := by
  rcases main_runJob w hfile hcfg with h | h <;>
  · rw [h, runJob_success w _ d tf h1 h2 h3 h4 h5 h6]
    exact ⟨_, _, rfl, by rw [List.length_map]⟩

/-- Witness for C1's amended statement: a 700-second job in which every
language-model call fails still reports one finding per window. -/
theorem C1_findings_per_window_witness :
    ∃ findings files, main W1w = .report findings files ∧
      findings.length = (planPos 700 300).length :=
  C1_findings_per_window W1w 700 (fun _ => "all quiet") rfl (fun _ => rfl) rfl
    (fun _ => rfl) rfl (fun _ => rfl) (fun _ => rfl) rfl

/-- Counterexample for C2: a fully successful 300-second job whose final
shutil.rmtree fails.  run() returns normally with the report, yet the
audio artifact and the transcript file remain under the workspace — and
on failing exit paths (see the C1, C3 and C10 counterexamples) cleanup
never runs at all. -/
theorem C2_counter :
    main W2x = .report [{ timestamp := 0, summary := "No incidents." }]
      ["temp/chunk_00-05.mp3", "temp/chunk_00-05_transcript.txt"] :=
  rfl

/-- C2 (corrected): the temporary workspace is emptied only on the fully
successful path and only when the removal call itself succeeds: under
those hypotheses no files remain.  On every error exit the cleanup code
is never reached (the except block at line 185 exits directly), and a
removal failure is only warned about while the report is still
produced. -/
theorem C2_cleanup (w : World) (d : Nat) (tf : Int → String)
    (hfile : w.fileExists = true)
    (hcfg : w.clientCreation = .ok () → w.inferenceModel.isSome = true)
    (h1 : w.decoderOpen = .ok d)
    (h2 : ∀ s, w.extractChunk s = .ok ())
    (h3 : w.whisperLoad = .ok ())
    (h4 : ∀ s, w.transcribeChunk s = .ok (tf s))
    (h5 : ∀ s, w.writeTranscriptFile s = .ok ())
    (h6 : w.writeOutput = .ok ())
    (hrm : w.rmtreeOk = true) :
    ∃ findings, main w = .report findings [] := by
  rcases main_runJob w hfile hcfg with h | h <;>
  · rw [h, runJob_success w _ d tf h1 h2 h3 h4 h5 h6, hrm]
    exact ⟨_, by rw [if_pos rfl]⟩

/-- Witness for C2's amended statement: the fully successful base
world leaves an empty workspace. -/
theorem C2_cleanup_witness : ∃ findings, main WBase = .report findings [] :=
  C2_cleanup WBase 700 (fun _ => "all quiet") rfl (fun _ => rfl) rfl (fun _ => rfl)
    rfl (fun _ => rfl) (fun _ => rfl) rfl rfl

/-- Counterexample for C3: a 600-second video with two planned windows
in which only the first window's transcription fails.  The failure is
not isolated: the whole job aborts, and no finding is produced for the
second window either. -/
theorem C3_counter :
    main W3x = .jobError "ASR failed on window 0"
      ["temp/chunk_00-05.mp3", "temp/chunk_05-10.mp3"] ∧
    (planPos 600 300).length = 2 :=
  ⟨rfl, rfl⟩

/-- C3 (corrected): a single window's extraction or transcription
failure is not isolated to that window — it propagates to the top-level
handler of main, which aborts the entire job with a job-level error, so
no finding is produced for any window.  (Only language-model analysis
failures are isolated per window, as C1's amended theorem and C6 show.) -/
theorem C3_failure_not_isolated (w : World) (d : Nat)
    (hfile : w.fileExists = true)
    (hcfg : w.clientCreation = .ok () → w.inferenceModel.isSome = true)
    (h1 : w.decoderOpen = .ok d)
    (hfail :
      (∃ win ∈ planPos d 300, ∃ e, w.extractChunk win.start = .error e) ∨
      ((∀ s, w.extractChunk s = .ok ()) ∧ w.whisperLoad = .ok () ∧
        ∃ win ∈ planPos d 300, ∃ e, w.transcribeChunk win.start = .error e)) :
    ∃ msg files, main w = .jobError msg files := by
  have hbody : ∀ ma, ∃ msg files, runJob w ma = .jobError msg files := by
    intro ma
    rcases hfail with hx | ⟨hex, hwh, win, hwin, e, he⟩
    · obtain ⟨e, files, hloop⟩ := extractLoop_err w (planPos d 300) hx
      exact ⟨e, files, by rw [runJob, h1]; dsimp only; rw [hloop]⟩
    · have hchunk : ({ path := audioName win, start := win.start } : AudioChunk) ∈
          (planPos d 300).map fun wi => ({ path := audioName wi, start := wi.start } : AudioChunk) :=
        List.mem_map.mpr ⟨win, hwin, rfl⟩
      obtain ⟨e2, hloop⟩ := transcribeLoop_err w _ ⟨_, hchunk, e, he⟩
      refine ⟨e2, (planPos d 300).map audioName, ?_⟩
      rw [runJob, h1]
      dsimp only
      rw [extractLoop_ok w hex]
      dsimp only
      rw [hwh]
      dsimp only
      rw [hloop]
  rcases main_runJob w hfile hcfg with h | h <;>
  · rw [h]
    exact hbody _

/-- Witness for C3's amended statement: a 900-second job whose middle
window fails transcription aborts entirely. -/
theorem C3_failure_not_isolated_witness :
    ∃ msg files, main W3w = .jobError msg files :=
  C3_failure_not_isolated W3w 900 rfl (fun _ => rfl) rfl
    (Or.inr ⟨fun _ => rfl, rfl,
      ⟨{ start := 300, stop := 600 }, by decide, "ASR engine crash", rfl⟩⟩)

/-- Counterexample for C6: on a language-model failure the returned
record has no error field at all — its JSON object carries exactly the
keys timestamp and summary, and the failure description is prepended
into summary itself rather than a separate error field with a
placeholder summary. -/
theorem C6_counter :
    (analyze_transcript (fun _ => .error "service unavailable") "t" 0).toJson =
      Json.obj [("timestamp", .num 0),
        ("summary", .str "Error analyzing transcript: service unavailable")] ∧
    Json.keys (analyze_transcript (fun _ => .error "service unavailable") "t" 0).toJson =
      ["timestamp", "summary"] :=
  ⟨rfl, rfl⟩

/-- C6 (corrected): analyze_transcript never raises — it is total — and
on any failure of the language-model call it returns a finding with the
same timestamp whose summary is the string "Error analyzing transcript: "
followed by the failure description; findings carry no separate error
field (each serializes with exactly the keys timestamp and summary), so
the pipeline continues to the next window. -/
theorem C6_analyze_never_raises (llm : String → Except String String)
    (text : String) (t : Int) (e : String) (h : llm text = .error e) :
    analyze_transcript llm text t =
      { timestamp := t, summary := "Error analyzing transcript: " ++ e } ∧
    Json.keys (analyze_transcript llm text t).toJson = ["timestamp", "summary"] := by
  rw [analyze_transcript, h]
  exact ⟨rfl, rfl⟩

/-- Witness for C6's amended statement at a concrete timed-out call. -/
theorem C6_analyze_never_raises_witness :
    analyze_transcript (fun _ => .error "timeout") "hello" 5 =
      { timestamp := 5, summary := "Error analyzing transcript: timeout" } ∧
    Json.keys (analyze_transcript (fun _ => .error "timeout") "hello" 5).toJson =
      ["timestamp", "summary"] :=
  C6_analyze_never_raises (fun _ => .error "timeout") "hello" 5 "timeout" rfl

/-- Counterexample for C8: a fully successful 300-second job.  The
report entry for its window carries exactly the two keys timestamp and
summary — start_time_seconds, end_time_seconds, start_time_minsec and
end_time_minsec are absent. -/
theorem C8_counter :
    main W8x = .report [{ timestamp := 0, summary := "No incidents." }] [] ∧
    Json.keys (Finding.toJson { timestamp := 0, summary := "No incidents." }) =
      ["timestamp", "summary"] :=
  ⟨rfl, rfl⟩

/-- C8 (corrected): on a successful run the report entry for each window
is an object with exactly the two fields timestamp — the window start in
integer seconds — and summary (a string); the four additional time
fields named by the claim are never produced. -/
theorem C8_report_entry_fields (w : World) (d : Nat) (tf : Int → String)
    (hfile : w.fileExists = true)
    (hcfg : w.clientCreation = .ok () → w.inferenceModel.isSome = true)
    (h1 : w.decoderOpen = .ok d)
    (h2 : ∀ s, w.extractChunk s = .ok ())
    (h3 : w.whisperLoad = .ok ())
    (h4 : ∀ s, w.transcribeChunk s = .ok (tf s))
    (h5 : ∀ s, w.writeTranscriptFile s = .ok ())
    (h6 : w.writeOutput = .ok ()) :
    ∃ findings files, main w = .report findings files ∧
      findings.map Finding.timestamp = (planPos d 300).map Window.start ∧
      ∀ f ∈ findings, Json.keys f.toJson = ["timestamp", "summary"] := by
  rcases main_runJob w hfile hcfg with h | h <;>
  · rw [h, runJob_success w _ d tf h1 h2 h3 h4 h5 h6]
    refine ⟨_, _, rfl, ?_, fun f _ => finding_keys f⟩
    rw [List.map_map]
    apply List.map_congr_left
    intro win _
    by_cases hma : (false : Bool) = true
    · simp at hma
    all_goals
      simp only [Function.comp]
      split
      · exact analyze_timestamp w.llmCall (tf win.start) win.start
      · rfl

/-- Witness for C8's amended statement on a successful 700-second job. -/
theorem C8_report_entry_fields_witness :
    ∃ findings files, main W8w = .report findings files ∧
      findings.map Finding.timestamp = (planPos 700 300).map Window.start ∧
      ∀ f ∈ findings, Json.keys f.toJson = ["timestamp", "summary"] :=
  C8_report_entry_fields W8w 700 (fun _ => "radio chatter") rfl (fun _ => rfl) rfl
    (fun _ => rfl) rfl (fun _ => rfl) (fun _ => rfl) rfl

/-- C9 (confirmed, over the spec-modelled analyze_video): a request
without the fixed "video" field receives status 400 with a JSON error
object; when the pipeline raises, the handler returns status 500 with a
JSON object carrying the exception message; when the pipeline succeeds,
the handler returns status 200 with the report as a JSON array. -/
theorem C9_endpoint_statuses (w : World) :
    (analyze { hasVideoField := false } w =
      { status := 400, body := .obj [("error", .str "No video file provided")] }) ∧
    (∀ msg files, main w = .jobError msg files →
      analyze { hasVideoField := true } w =
        { status := 500, body := .obj [("error", .str msg)] }) ∧
    (∀ findings files, main w = .report findings files →
      analyze { hasVideoField := true } w =
        { status := 200, body := .arr (findings.map Finding.toJson) }) := by
  refine ⟨rfl, ?_, ?_⟩
  · intro msg files h
    rw [analyze, analyze_video, h]
    rfl
  · intro findings files h
    rw [analyze, analyze_video, h]
    rfl

/-- Witness for C9 covering all three cases: missing field, successful
200-second job, and a decoder failure surfacing as a 500. -/
theorem C9_endpoint_statuses_witness :
    analyze { hasVideoField := false } W9 =
      { status := 400, body := .obj [("error", .str "No video file provided")] } ∧
    analyze { hasVideoField := true } W9 =
      { status := 200,
        body := .arr [Finding.toJson { timestamp := 0, summary := "No incidents." }] } ∧
    analyze { hasVideoField := true } W9e =
      { status := 500, body := .obj [("error", .str "moov atom not found")] } :=
  ⟨(C9_endpoint_statuses W9).1,
   (C9_endpoint_statuses W9).2.2 [{ timestamp := 0, summary := "No incidents." }] [] rfl,
   (C9_endpoint_statuses W9e).2.1 "moov atom not found" [] rfl⟩

/-- Counterexample for C10: a 300-second job in which only the
transcript-file write fails.  The write is not advisory: the exception
propagates to the top-level handler, the whole job aborts with a
job-level error, and no report (hence no findings at all) is produced. -/
theorem C10_counter : main W10x = .jobError "disk full" ["temp/chunk_00-05.mp3"] := rfl

/-- C10 (corrected): persisting the transcript text is on the job's
critical path, not advisory: if the write fails for any planned window —
with the decoder, extraction, whisper and transcription all succeeding —
the whole job aborts with a job-level error and no report is produced. -/
theorem C10_transcript_write_required (w : World) (d : Nat) (tf : Int → String)
    (hfile : w.fileExists = true)
    (hcfg : w.clientCreation = .ok () → w.inferenceModel.isSome = true)
    (h1 : w.decoderOpen = .ok d)
    (h2 : ∀ s, w.extractChunk s = .ok ())
    (h3 : w.whisperLoad = .ok ())
    (h4 : ∀ s, w.transcribeChunk s = .ok (tf s))
    (hfail : ∃ win ∈ planPos d 300, ∃ e, w.writeTranscriptFile win.start = .error e) :
    ∃ msg files, main w = .jobError msg files := by
  have hbody : ∀ ma, ∃ msg files, runJob w ma = .jobError msg files := by
    intro ma
    obtain ⟨win, hwin, e, he⟩ := hfail
    have ht : ({ path := audioName win, text := tf win.start, start := win.start } : Transcript) ∈
        ((planPos d 300).map fun wi =>
          ({ path := audioName wi, start := wi.start } : AudioChunk)).map fun c =>
          ({ path := c.path, text := tf c.start, start := c.start } : Transcript) := by
      rw [List.map_map]
      exact List.mem_map.mpr ⟨win, hwin, rfl⟩
    obtain ⟨e2, files, hloop⟩ := analysisLoop_err w ma _ ⟨_, ht, e, he⟩
    refine ⟨e2, (planPos d 300).map audioName ++ files, ?_⟩
    rw [runJob, h1]
    dsimp only
    rw [extractLoop_ok w h2]
    dsimp only
    rw [h3]
    dsimp only
    rw [transcribeLoop_ok w tf h4]
    dsimp only
    rw [hloop]
  rcases main_runJob w hfile hcfg with h | h <;>
  · rw [h]
    exact hbody _

/-- Witness for C10's amended statement: a 350-second job whose second
window's transcript write fails aborts entirely. -/
theorem C10_transcript_write_required_witness :
    ∃ msg files, main W10w = .jobError msg files :=
  C10_transcript_write_required W10w 350 (fun _ => "all quiet") rfl (fun _ => rfl) rfl
    (fun _ => rfl) rfl (fun _ => rfl)
    ⟨{ start := 300, stop := 350 }, by decide, "read-only file system", rfl⟩

end FootageAnalysis
